import Mathlib

/-!
Shallow embedding of the saphyr annotated YAML node model
(`src/saphyr/src/annotated.rs` and `src/saphyr/src/annotated/marked_yaml.rs`).

Rust `Box<str>` and `String` become Lean `String`; `i64` values become `Int`
(with the `i64::try_from(usize)` range check made explicit where the source
performs it); `Vec<Node>` becomes `List MarkedYaml`; `hashlink::LinkedHashMap`
becomes an insertion-ordered association list `List (MarkedYaml × MarkedYaml)`
whose `get` scans for the first key equal (under the nodes' equality) to the
probe; panics become `Except.error` carrying the panic message.
-/

/-- Model of `saphyr_parser::Tag` (external crate): a tag handle and suffix,
with derived structural equality. -/
structure Tag where
  handle : String
  suffix : String
deriving DecidableEq, Repr

/-- Model of `saphyr_parser::Marker` (external crate): index, line, column.
`Default` derives to all zeroes. -/
structure Marker where
  index : Nat
  line : Nat
  col : Nat
deriving DecidableEq, Repr

/-- `Marker::default()`. -/
def Marker.default : Marker := ⟨0, 0, 0⟩

/-- Model of `saphyr_parser::Span` (external crate): a start and an end marker.
The `end` field is spelled `end_` because `end` is a Lean keyword. -/
structure Span where
  start : Marker
  end_ : Marker
deriving DecidableEq, Repr

/-- `Span::default()`. -/
def Span.default : Span := ⟨Marker.default, Marker.default⟩

/-- Alias for the builtin string type, needed in signatures inside the
`YamlData` namespace where the constructor `YamlData.String` shadows it. -/
abbrev StrT := String

/-- Alias for the builtin boolean type, needed in signatures inside the
`YamlData` namespace where the constructor `YamlData.Bool` shadows it. -/
abbrev BoolT := Bool

mutual
/-- `YamlData<Node>` from `annotated.rs`, instantiated at `Node = MarkedYaml`
(the only instantiation in the sources). Variants and fields follow the Rust
enum: `Real`/`String` store owned strings, `Integer` an `i64`, `Bool` a
boolean, `Sequence` a vector of nodes, `Map` an insertion-ordered map, plus
`Alias`, `Null` and `BadValue`. -/
inductive YamlData where
  | Real (value : String) (tag : Option Tag)
  | Integer (value : Int) (tag : Option Tag)
  | String (value : String) (tag : Option Tag)
  | Bool (value : Bool) (tag : Option Tag)
  | Sequence (value : List MarkedYaml) (tag : Option Tag)
  | Map (value : List (MarkedYaml × MarkedYaml)) (tag : Option Tag)
  | Alias (anchor : Nat)
  | Null
  | BadValue

/-- `MarkedYaml` from `marked_yaml.rs`: a span plus the YAML data. -/
inductive MarkedYaml where
  | mk (span : Span) (data : YamlData)
end

/-- Projection for the `span` field of `MarkedYaml`. -/
def MarkedYaml.span : MarkedYaml → Span
  | .mk s _ => s

/-- Projection for the `data` field of `MarkedYaml`. -/
def MarkedYaml.data : MarkedYaml → YamlData
  | .mk _ d => d

mutual
/-- Derived `PartialEq` on `YamlData<MarkedYaml>`: compares variant, value and
tag fields; node children compare via `MarkedYaml`'s (custom) equality, and
the `LinkedHashMap` compares lengths and entries in insertion order. -/
def YamlData.beq : YamlData → YamlData → Bool
  | .Real v t, .Real v' t' => v == v' && t == t'
  | .Integer v t, .Integer v' t' => v == v' && t == t'
  | .String v t, .String v' t' => v == v' && t == t'
  | .Bool v t, .Bool v' t' => v == v' && t == t'
  | .Sequence v t, .Sequence v' t' => YamlData.listBeq v v' && t == t'
  | .Map v t, .Map v' t' => YamlData.entriesBeq v v' && t == t'
  | .Alias a, .Alias a' => a == a'
  | .Null, .Null => true
  | .BadValue, .BadValue => true
  | _, _ => false
termination_by d _ => sizeOf d

/-- Element-wise equality of node vectors (Rust `Vec::eq`). -/
def YamlData.listBeq : List MarkedYaml → List MarkedYaml → Bool
  | [], [] => true
  | a :: as_, b :: bs => MarkedYaml.beq a b && YamlData.listBeq as_ bs
  | _, _ => false
termination_by l _ => sizeOf l

/-- Entry-wise, order-sensitive equality of map entries
(`LinkedHashMap::eq` iterates both maps in insertion order). -/
def YamlData.entriesBeq :
    List (MarkedYaml × MarkedYaml) → List (MarkedYaml × MarkedYaml) → Bool
  | [], [] => true
  | (k, v) :: as_, (k', v') :: bs =>
      MarkedYaml.beq k k' && MarkedYaml.beq v v' && YamlData.entriesBeq as_ bs
  | _, _ => false
termination_by l _ => sizeOf l

/-- `impl PartialEq for MarkedYaml` (`marked_yaml.rs` lines 112-116):
`self.data.eq(&other.data)` — the span field is not consulted. -/
def MarkedYaml.beq : MarkedYaml → MarkedYaml → Bool
  | .mk _ d, .mk _ d' => YamlData.beq d d'
termination_by m _ => sizeOf m
end

/-- A deterministic combination of two hash words, standing in for the
stream of `Hasher::write` calls a derived `Hash` implementation makes. -/
def hashMix (a b : Nat) : Nat := a * 1000003 + b

/-- Hash of an optional tag (derived `Hash` on `Option<Tag>`). -/
def hashOptTag : Option Tag → Nat
  | none => 0
  | some t => hashMix 1 (hashMix t.handle.hash.toNat t.suffix.hash.toNat)

mutual
/-- Derived `Hash` on `YamlData<MarkedYaml>`: feeds the variant discriminant
and then each field to the hasher; node children hash via `MarkedYaml`'s
(custom) `Hash`, and the `LinkedHashMap` hashes its entries in order. -/
def YamlData.hashNat : YamlData → Nat
  | .Real v t => hashMix 0 (hashMix v.hash.toNat (hashOptTag t))
  | .Integer v t =>
      hashMix 1 (hashMix (2 * v.natAbs + if v < 0 then 1 else 0) (hashOptTag t))
  | .String v t => hashMix 2 (hashMix v.hash.toNat (hashOptTag t))
  | .Bool v t => hashMix 3 (hashMix (cond v 1 0) (hashOptTag t))
  | .Sequence v t => hashMix 4 (hashMix (YamlData.hashList v) (hashOptTag t))
  | .Map v t => hashMix 5 (hashMix (YamlData.hashEntries v) (hashOptTag t))
  | .Alias a => hashMix 6 a
  | .Null => 7
  | .BadValue => 8
termination_by d => sizeOf d

/-- Hash of a node vector: the elements' hashes in order. -/
def YamlData.hashList : List MarkedYaml → Nat
  | [] => 0
  | a :: as_ => hashMix (MarkedYaml.hashNat a) (YamlData.hashList as_)
termination_by l => sizeOf l

/-- Hash of the map entries in insertion order. -/
def YamlData.hashEntries : List (MarkedYaml × MarkedYaml) → Nat
  | [] => 0
  | (k, v) :: as_ =>
      hashMix (hashMix (MarkedYaml.hashNat k) (MarkedYaml.hashNat v))
        (YamlData.hashEntries as_)
termination_by l => sizeOf l

/-- `impl Hash for MarkedYaml` (`marked_yaml.rs` lines 121-125):
`self.data.hash(state)` — the span field is not hashed. -/
def MarkedYaml.hashNat : MarkedYaml → Nat
  | .mk _ d => YamlData.hashNat d
termination_by m => sizeOf m
end

/-- The bare `Yaml` enum (defined in `yaml.rs`, which is not among the given
sources); its variants and their fields are reconstructed from the exhaustive
`match yaml` in `MarkedYaml::from_bare_yaml` (`marked_yaml.rs` lines 140-154),
which names every variant and the fields it carries. -/
inductive Yaml where
  | Real (value : String) (tag : Option Tag)
  | Integer (value : Int) (tag : Option Tag)
  | String (value : String) (tag : Option Tag)
  | Boolean (value : Bool) (tag : Option Tag)
  | Sequence (value : List Yaml) (tag : Option Tag)
  | Map (value : List (Yaml × Yaml)) (tag : Option Tag)
  | Alias (anchor : Nat)
  | Null
  | BadValue

/-- The tag field of a bare `Yaml` node (`Alias`, `Null` and `BadValue` carry
none), used to state tag preservation. -/
def Yaml.get_tag : Yaml → Option Tag
  | .Real _ t => t
  | .Integer _ t => t
  | .String _ t => t
  | .Boolean _ t => t
  | .Sequence _ t => t
  | .Map _ t => t
  | _ => none

/-- `MarkedYaml::from_bare_yaml` (`marked_yaml.rs` lines 137-156): converts a
bare node, keeping scalar values and tags; `Sequence` and `Map` always get an
empty container; the span is `Span::default()`. -/
def MarkedYaml.from_bare_yaml : Yaml → MarkedYaml
  | .Real v t => .mk Span.default (.Real v t)
  | .Integer v t => .mk Span.default (.Integer v t)
  | .String v t => .mk Span.default (.String v t)
  | .Boolean v t => .mk Span.default (.Bool v t)
  | .Sequence _ t => .mk Span.default (.Sequence [] t)
  | .Map _ t => .mk Span.default (.Map [] t)
  | .Alias a => .mk Span.default (.Alias a)
  | .Null => .mk Span.default .Null
  | .BadValue => .mk Span.default .BadValue

/-- `define_as_ref!(as_str, &str, String)` (`annotated.rs` line 114). -/
def YamlData.as_str : YamlData → Option StrT
  | .String v _ => some v
  | _ => none

/-- `define_as_ref!(as_map, &AnnotatedMap<Node>, Map)` (`annotated.rs` line 113). -/
def YamlData.as_map : YamlData → Option (List (MarkedYaml × MarkedYaml))
  | .Map v _ => some v
  | _ => none

/-- `define_as_ref!(as_sequence, &Vec<Node>, Sequence)` (`annotated.rs` line 115). -/
def YamlData.as_sequence : YamlData → Option (List MarkedYaml)
  | .Sequence v _ => some v
  | _ => none

/-- `define_into!(into_sequence, Vec<Node>, Sequence)` (`annotated.rs` line 124). -/
def YamlData.into_sequence : YamlData → Option (List MarkedYaml)
  | .Sequence v _ => some v
  | _ => none

/-- `define_is!(is_alias, Self::Alias(_))` (`annotated.rs` line 126). -/
def YamlData.is_alias : YamlData → BoolT
  | .Alias _ => true
  | _ => false

/-- `define_is!(is_sequence, ...)` (`annotated.rs` line 127). -/
def YamlData.is_sequence : YamlData → BoolT
  | .Sequence _ _ => true
  | _ => false

/-- `define_is!(is_badvalue, ...)` (`annotated.rs` line 128). -/
def YamlData.is_badvalue : YamlData → BoolT
  | .BadValue => true
  | _ => false

/-- `define_is!(is_boolean, ...)` (`annotated.rs` line 129). -/
def YamlData.is_boolean : YamlData → BoolT
  | .Bool _ _ => true
  | _ => false

/-- `define_is!(is_map, ...)` (`annotated.rs` line 130). -/
def YamlData.is_map : YamlData → BoolT
  | .Map _ _ => true
  | _ => false

/-- `define_is!(is_integer, ...)` (`annotated.rs` line 131). -/
def YamlData.is_integer : YamlData → BoolT
  | .Integer _ _ => true
  | _ => false

/-- `define_is!(is_null, ...)` (`annotated.rs` line 132). -/
def YamlData.is_null : YamlData → BoolT
  | .Null => true
  | _ => false

/-- `define_is!(is_real, ...)` (`annotated.rs` line 133). -/
def YamlData.is_real : YamlData → BoolT
  | .Real _ _ => true
  | _ => false

/-- `define_is!(is_string, ...)` (`annotated.rs` line 134). -/
def YamlData.is_string : YamlData → BoolT
  | .String _ _ => true
  | _ => false

/-- `YamlData::get_tag` (`annotated.rs` lines 141-151). -/
def YamlData.get_tag : YamlData → Option Tag
  | .Real _ t => t
  | .Integer _ t => t
  | .String _ t => t
  | .Bool _ t => t
  | .Sequence _ t => t
  | .Map _ t => t
  | _ => none

/-- `YamlData::or` (`annotated.rs` lines 182-187). -/
def YamlData.or : YamlData → YamlData → YamlData
  | .BadValue, other => other
  | .Null, other => other
  | this, _ => this

/-- `YamlData::borrowed_or` (`annotated.rs` lines 193-198): the same match,
on borrowed values. -/
def YamlData.borrowed_or : YamlData → YamlData → YamlData
  | .BadValue, other => other
  | .Null, other => other
  | this, _ => this

/-- `impl From<YamlData<MarkedYaml>> for MarkedYaml`
(`marked_yaml.rs` lines 127-134): wraps the data with `Span::default()`. -/
def MarkedYaml.fromData (d : YamlData) : MarkedYaml := .mk Span.default d

/-- `hashlink::LinkedHashMap::get` (external crate): finds the value of the
first (by insertion order, keys being unique) entry whose key equals the
probe under the nodes' equality. -/
def lhmGet (m : List (MarkedYaml × MarkedYaml)) (key : MarkedYaml) :
    Option MarkedYaml :=
  match m with
  | [] => none
  | (k, v) :: rest => if MarkedYaml.beq k key then some v else lhmGet rest key

/-- `hashlink::LinkedHashMap::get_mut` (external crate) followed by one write
of `newVal` through the returned reference: if the key is present the entry's
value is replaced in place (keys and insertion order untouched); if absent,
`none` — `get_mut` never inserts. -/
def lhmGetMutSet (m : List (MarkedYaml × MarkedYaml)) (key newVal : MarkedYaml) :
    Option (List (MarkedYaml × MarkedYaml)) :=
  match m with
  | [] => none
  | (k, v) :: rest =>
      if MarkedYaml.beq k key then some ((k, newVal) :: rest)
      else (lhmGetMutSet rest key newVal).map (fun r => (k, v) :: r)

/-- The message of a panicking `Option::unwrap()`. -/
def unwrapNoneMsg : String := "called Option::unwrap() on a None value"

/-- The message of a panicking `Result::unwrap()` (here: `i64::try_from` on a
`usize` exceeding `i64::MAX`). -/
def unwrapErrMsg : String := "called Result::unwrap() on an Err value"

/-- `impl Index<&str> for YamlData` (`annotated.rs` lines 216-225): builds the
synthetic tag-less `String` key, converts it to a node (default span), and
looks it up via `as_map`; a missing key panics inside `unwrap`, a non-map
panics with `"{idx}: key does not exist"`. -/
def YamlData.indexStr (d : YamlData) (idx : StrT) : Except StrT MarkedYaml :=
  let key := YamlData.String idx none
  match d.as_map with
  | some h =>
      match lhmGet h (MarkedYaml.fromData key) with
      | some v => .ok v
      | none => .error unwrapNoneMsg
  | none => .error s!"{idx}: key does not exist"

/-- `impl Index<usize> for YamlData` (`annotated.rs` lines 265-277): a
sequence does positional lookup (`unwrap` panics when out of range); a map
looks up the synthetic tag-less `Integer` key obtained through
`i64::try_from(idx).unwrap()`; any other variant panics with
`"{idx}: Index out of bounds"`. -/
def YamlData.indexUsize (d : YamlData) (idx : Nat) : Except StrT MarkedYaml :=
  match d.as_sequence with
  | some v =>
      match v[idx]? with
      | some x => .ok x
      | none => .error unwrapNoneMsg
  | none =>
      match d.as_map with
      | some h =>
          if idx < 2 ^ 63 then
            match lhmGet h (MarkedYaml.fromData (.Integer (Int.ofNat idx) none)) with
            | some v => .ok v
            | none => .error unwrapNoneMsg
          else .error unwrapErrMsg
      | none => .error s!"{idx}: Index out of bounds"

/-- `impl IndexMut<usize> for YamlData` (`annotated.rs` lines 293-307),
composed with one write of `newVal` through the returned mutable reference:
a sequence writes at position `idx` (slice indexing panics when out of
range); a map writes through `get_mut` at the synthetic tag-less `Integer`
key (`unwrap` panics when the key is absent — no entry is ever inserted);
any other variant panics. On error the value is returned unchanged by the
caller, no write having happened. -/
def YamlData.indexMutUsizeSet (d : YamlData) (idx : Nat) (newVal : MarkedYaml) :
    Except StrT YamlData :=
  match d with
  | .Sequence seq t =>
      if idx < seq.length then .ok (.Sequence (seq.set idx newVal) t)
      else
        let n := seq.length
        .error s!"index out of bounds: the len is {n} but the index is {idx}"
  | .Map m t =>
      if idx < 2 ^ 63 then
        match lhmGetMutSet m (MarkedYaml.fromData (.Integer (Int.ofNat idx) none)) newVal with
        | some m' => .ok (.Map m' t)
        | none => .error unwrapNoneMsg
      else .error unwrapErrMsg
  | _ => .error "Attempting to index but `self` is not a sequence nor a mapping"

/-- `impl IntoIterator for YamlData` (`annotated.rs` lines 317-321):
`self.into_sequence().unwrap_or_default().into_iter()`, as the list of items
the iterator yields. -/
def YamlData.intoIterList (d : YamlData) : List MarkedYaml :=
  (d.into_sequence.getD [])

/-- Rust `str::starts_with(pat)`: the pattern's characters are an initial
segment of the string's characters (byte prefix and character prefix agree on
UTF-8). -/
def strStartsWith (s pat : String) : Bool :=
  pat.data.isPrefixOf s.data

/-- `MarkedYaml::is_merge_key` (`marked_yaml.rs` lines 165-167):
`self.data.as_str().is_some_and(|s| s.starts_with("<<"))`. -/
def MarkedYaml.is_merge_key (m : MarkedYaml) : Bool :=
  match m.data.as_str with
  | some s => strStartsWith s "<<"
  | none => false

/-- `MarkedYaml::take` (`marked_yaml.rs` lines 201-208): swaps `self` with a
default-span `BadValue` node; the first component is the returned prior
value, the second is what is left in place of `self`. -/
def MarkedYaml.take (self : MarkedYaml) : MarkedYaml × MarkedYaml :=
  (self, .mk Span.default .BadValue)

/-- `MarkedYaml::with_span` (`marked_yaml.rs` lines 210-213). -/
def MarkedYaml.with_span (self : MarkedYaml) (span : Span) : MarkedYaml :=
  .mk span self.data

/-- Whether `pat` occurs as a contiguous run of characters inside `s`; used
to state what a panic message does or does not cite. -/
def strContainsSub (s pat : String) : Bool :=
  (List.range (s.data.length + 1)).any (fun i => pat.data.isPrefixOf (s.data.drop i))

/-- C1 (counterexample): `is_merge_key` is true on the `String` node `"<<x"`,
whose value merely starts with — and is not equal to — the two-character
merge-key sigil `"<<"`. -/
theorem is_merge_key_c1_counterexample :
    MarkedYaml.is_merge_key (.mk Span.default (.String "<<x" none)) = true ∧
    ("<<x" : String) ≠ "<<" := by
  constructor
  · decide
  · decide

/-- C1 (amended): `is_merge_key` returns true exactly when the node is a
`String` scalar whose value STARTS WITH the two-character merge-key sigil
`"<<"` (the code calls `starts_with`, not equality). -/
theorem is_merge_key_c1_amended (m : MarkedYaml) :
    m.is_merge_key = true ↔
      ∃ v t, m.data = YamlData.String v t ∧ strStartsWith v "<<" = true := by
  obtain ⟨s, d⟩ := m
  cases d <;> simp [MarkedYaml.is_merge_key, MarkedYaml.data, YamlData.as_str]

/-- Equal data hashes equally: derived `Hash` only reads the fields that
derived `PartialEq` compares, and both recurse through children via
`MarkedYaml`'s span-ignoring equality and hash. Proved by simultaneous
induction over the nested node/list/entry structure. -/
theorem YamlData.beq_hashNat :
    ∀ d d' : YamlData, YamlData.beq d d' = true →
      YamlData.hashNat d = YamlData.hashNat d' := by
  intro d
  refine @YamlData.rec
    (fun d => ∀ d', YamlData.beq d d' = true →
      YamlData.hashNat d = YamlData.hashNat d')
    (fun m => ∀ m', MarkedYaml.beq m m' = true →
      MarkedYaml.hashNat m = MarkedYaml.hashNat m')
    (fun l => ∀ l', YamlData.listBeq l l' = true →
      YamlData.hashList l = YamlData.hashList l')
    (fun l => ∀ l', YamlData.entriesBeq l l' = true →
      YamlData.hashEntries l = YamlData.hashEntries l')
    (fun p => (∀ q, MarkedYaml.beq p.1 q = true →
        MarkedYaml.hashNat p.1 = MarkedYaml.hashNat q) ∧
      (∀ q, MarkedYaml.beq p.2 q = true →
        MarkedYaml.hashNat p.2 = MarkedYaml.hashNat q))
    ?_ ?_ ?_ ?_ ?_ ?_ ?_ ?_ ?_ ?_ ?_ ?_ ?_ ?_ ?_ d
  · intro v t d' h
    cases d' <;> simp only [YamlData.beq, Bool.and_eq_true, beq_iff_eq] at h
    all_goals first
      | exact Bool.noConfusion h
      | (obtain ⟨h1, h2⟩ := h; subst h1; subst h2; rfl)
  · intro v t d' h
    cases d' <;> simp only [YamlData.beq, Bool.and_eq_true, beq_iff_eq] at h
    all_goals first
      | exact Bool.noConfusion h
      | (obtain ⟨h1, h2⟩ := h; subst h1; subst h2; rfl)
  · intro v t d' h
    cases d' <;> simp only [YamlData.beq, Bool.and_eq_true, beq_iff_eq] at h
    all_goals first
      | exact Bool.noConfusion h
      | (obtain ⟨h1, h2⟩ := h; subst h1; subst h2; rfl)
  · intro v t d' h
    cases d' <;> simp only [YamlData.beq, Bool.and_eq_true, beq_iff_eq] at h
    all_goals first
      | exact Bool.noConfusion h
      | (obtain ⟨h1, h2⟩ := h; subst h1; subst h2; rfl)
  · intro v t ih d' h
    cases d' <;> simp only [YamlData.beq, Bool.and_eq_true, beq_iff_eq] at h
    all_goals first
      | exact Bool.noConfusion h
      | (obtain ⟨h1, h2⟩ := h; subst h2;
         simp only [YamlData.hashNat]
         rw [ih _ h1])
  · intro v t ih d' h
    cases d' <;> simp only [YamlData.beq, Bool.and_eq_true, beq_iff_eq] at h
    all_goals first
      | exact Bool.noConfusion h
      | (obtain ⟨h1, h2⟩ := h; subst h2;
         simp only [YamlData.hashNat]
         rw [ih _ h1])
  · intro a d' h
    cases d' <;> simp only [YamlData.beq, beq_iff_eq] at h
    all_goals first
      | exact Bool.noConfusion h
      | (subst h; rfl)
  · intro d' h
    cases d' <;> simp only [YamlData.beq] at h
    all_goals first
      | exact Bool.noConfusion h
      | rfl
  · intro d' h
    cases d' <;> simp only [YamlData.beq] at h
    all_goals first
      | exact Bool.noConfusion h
      | rfl
  · intro s dd ih m' h
    obtain ⟨s', d'⟩ := m'
    simp only [MarkedYaml.beq] at h
    simp only [MarkedYaml.hashNat]
    exact ih _ h
  · intro l' h
    cases l' with
    | nil => rfl
    | cons b bs =>
      simp only [YamlData.listBeq] at h
      exact Bool.noConfusion h
  · intro head tail ihh iht l' h
    cases l' with
    | nil =>
      simp only [YamlData.listBeq] at h
      exact Bool.noConfusion h
    | cons b bs =>
      simp only [YamlData.listBeq, Bool.and_eq_true] at h
      simp only [YamlData.hashList]
      rw [ihh _ h.1, iht _ h.2]
  · intro l' h
    cases l' with
    | nil => rfl
    | cons b bs =>
      simp only [YamlData.entriesBeq] at h
      exact Bool.noConfusion h
  · intro head tail ihh iht l' h
    obtain ⟨k, v⟩ := head
    cases l' with
    | nil =>
      simp only [YamlData.entriesBeq] at h
      exact Bool.noConfusion h
    | cons b bs =>
      obtain ⟨k', v'⟩ := b
      simp only [YamlData.entriesBeq, Bool.and_eq_true] at h
      simp only [YamlData.hashEntries]
      rw [ihh.1 _ h.1.1, ihh.2 _ h.1.2, iht _ h.2]
  · intro f s ih1 ih2
    exact ⟨ih1, ih2⟩

/-- C2: `MarkedYaml` equality holds exactly when the `data` fields are equal,
equal `data` implies equal hashes, and both equality and hashing are
invariant under arbitrary changes to the `span` field. -/
theorem marked_eq_hash_c2 (a b : MarkedYaml) (s s' : Span) :
    (MarkedYaml.beq a b = true ↔ YamlData.beq a.data b.data = true) ∧
    (YamlData.beq a.data b.data = true →
      MarkedYaml.hashNat a = MarkedYaml.hashNat b) ∧
    MarkedYaml.beq (a.with_span s) (b.with_span s') = MarkedYaml.beq a b ∧
    MarkedYaml.hashNat (a.with_span s) = MarkedYaml.hashNat a := by
  obtain ⟨sa, da⟩ := a
  obtain ⟨sb, db⟩ := b
  simp only [MarkedYaml.beq, MarkedYaml.hashNat, MarkedYaml.data,
    MarkedYaml.with_span]
  exact ⟨trivial, fun h => YamlData.beq_hashNat _ _ h, trivial, trivial⟩

/-- C2 (witness): two `Integer 5` nodes at different source spans have equal
data and hash identically. -/
theorem marked_eq_hash_c2_witness :
    YamlData.beq (MarkedYaml.mk ⟨⟨1, 2, 3⟩, ⟨4, 5, 6⟩⟩ (.Integer 5 none)).data
        (MarkedYaml.mk Span.default (.Integer 5 none)).data = true ∧
    MarkedYaml.hashNat (MarkedYaml.mk ⟨⟨1, 2, 3⟩, ⟨4, 5, 6⟩⟩ (.Integer 5 none)) =
      MarkedYaml.hashNat (MarkedYaml.mk Span.default (.Integer 5 none)) := by
  have h : YamlData.beq ((MarkedYaml.mk ⟨⟨1, 2, 3⟩, ⟨4, 5, 6⟩⟩
      (.Integer 5 none)).data) ((MarkedYaml.mk Span.default
      (.Integer 5 none)).data) = true := by
    simp [MarkedYaml.data, YamlData.beq]
  exact ⟨h, (marked_eq_hash_c2 _ _ Span.default Span.default).2.1 h⟩

/-- C3: `from_bare_yaml` yields the default span, preserves the tag, keeps the
variant and scalar values, and always produces an EMPTY container for
`Sequence` and `Map` inputs regardless of their contents. -/
theorem from_bare_yaml_c3 (y : Yaml) :
    (MarkedYaml.from_bare_yaml y).span = Span.default ∧
    (MarkedYaml.from_bare_yaml y).data.get_tag = y.get_tag ∧
    (∀ v t, y = Yaml.Real v t →
      (MarkedYaml.from_bare_yaml y).data = YamlData.Real v t) ∧
    (∀ v t, y = Yaml.Integer v t →
      (MarkedYaml.from_bare_yaml y).data = YamlData.Integer v t) ∧
    (∀ v t, y = Yaml.String v t →
      (MarkedYaml.from_bare_yaml y).data = YamlData.String v t) ∧
    (∀ v t, y = Yaml.Boolean v t →
      (MarkedYaml.from_bare_yaml y).data = YamlData.Bool v t) ∧
    (∀ v t, y = Yaml.Sequence v t →
      (MarkedYaml.from_bare_yaml y).data = YamlData.Sequence [] t) ∧
    (∀ v t, y = Yaml.Map v t →
      (MarkedYaml.from_bare_yaml y).data = YamlData.Map [] t) ∧
    (∀ a, y = Yaml.Alias a →
      (MarkedYaml.from_bare_yaml y).data = YamlData.Alias a) ∧
    (y = Yaml.Null → (MarkedYaml.from_bare_yaml y).data = YamlData.Null) ∧
    (y = Yaml.BadValue → (MarkedYaml.from_bare_yaml y).data = YamlData.BadValue) := by
  cases y <;>
    simp [MarkedYaml.from_bare_yaml, MarkedYaml.span, MarkedYaml.data,
      YamlData.get_tag, Yaml.get_tag]

/-- C3 (witness): converting a bare one-element `Sequence` yields an empty
annotated `Sequence`. -/
theorem from_bare_yaml_c3_witness :
    Yaml.Sequence [Yaml.Null] none = Yaml.Sequence [Yaml.Null] none ∧
    (MarkedYaml.from_bare_yaml (Yaml.Sequence [Yaml.Null] none)).data =
      YamlData.Sequence [] none :=
  ⟨rfl, (from_bare_yaml_c3 (Yaml.Sequence [Yaml.Null] none)).2.2.2.2.2.2.1
    [Yaml.Null] none rfl⟩

/-- C4: `BadValue.or(x) = x`, `Null.or(x) = x`, and `y.or(x) = y` whenever `y`
is neither `Null` nor `BadValue`; `borrowed_or` satisfies the same
equations. -/
theorem or_c4 :
    (∀ x : YamlData, YamlData.BadValue.or x = x) ∧
    (∀ x : YamlData, YamlData.Null.or x = x) ∧
    (∀ x y : YamlData, y ≠ YamlData.Null → y ≠ YamlData.BadValue → y.or x = y) ∧
    (∀ x : YamlData, YamlData.BadValue.borrowed_or x = x) ∧
    (∀ x : YamlData, YamlData.Null.borrowed_or x = x) ∧
    (∀ x y : YamlData, y ≠ YamlData.Null → y ≠ YamlData.BadValue →
      y.borrowed_or x = y) := by
  refine ⟨fun x => rfl, fun x => rfl, ?_, fun x => rfl, fun x => rfl, ?_⟩ <;>
    · intro x y h1 h2
      cases y <;> first | rfl | exact absurd rfl h1 | exact absurd rfl h2

/-- C4 (witness): an `Integer` node is neither `Null` nor `BadValue` and is
kept by both `or` and `borrowed_or`. -/
theorem or_c4_witness :
    (YamlData.Integer 1 none ≠ YamlData.Null) ∧
    (YamlData.Integer 1 none ≠ YamlData.BadValue) ∧
    (YamlData.Integer 1 none).or YamlData.Null = YamlData.Integer 1 none ∧
    (YamlData.Integer 1 none).borrowed_or YamlData.Null = YamlData.Integer 1 none :=
  ⟨(fun h => nomatch h), (fun h => nomatch h),
    or_c4.2.2.1 _ _ (fun h => nomatch h) (fun h => nomatch h),
    or_c4.2.2.2.2.2 _ _ (fun h => nomatch h) (fun h => nomatch h)⟩

/-- C5 (counterexample): a `Null` node indexed by string key `"x"` faults with
message `"x: key does not exist"`, which does not cite "not a mapping". -/
theorem indexStr_c5_counterexample :
    YamlData.indexStr YamlData.Null "x" = Except.error "x: key does not exist" ∧
    strContainsSub "x: key does not exist" "not a mapping" = false := by
  constructor
  · rfl
  · decide

/-- C5 (amended): indexing by string key builds a synthetic tag-less `String`
key; a present key returns its value; an absent key faults inside `unwrap`
(message not naming the key); a non-`Map` node faults with the message
naming the key, `"{k}: key does not exist"` — not "not a mapping". -/
theorem indexStr_c5_amended :
    (∀ (m : List (MarkedYaml × MarkedYaml)) (t : Option Tag) (k : StrT)
        (v : MarkedYaml),
      lhmGet m (MarkedYaml.fromData (.String k none)) = some v →
      YamlData.indexStr (.Map m t) k = .ok v) ∧
    (∀ (m : List (MarkedYaml × MarkedYaml)) (t : Option Tag) (k : StrT),
      lhmGet m (MarkedYaml.fromData (.String k none)) = none →
      YamlData.indexStr (.Map m t) k = .error unwrapNoneMsg) ∧
    (∀ (d : YamlData) (k : StrT), d.is_map = false →
      YamlData.indexStr d k = .error s!"{k}: key does not exist") := by
  refine ⟨?_, ?_, ?_⟩
  · intro m t k v h
    simp only [YamlData.indexStr, YamlData.as_map]
    rw [h]
  · intro m t k h
    simp only [YamlData.indexStr, YamlData.as_map]
    rw [h]
  · intro d k h
    cases d <;>
      simp_all only [YamlData.indexStr, YamlData.as_map, YamlData.is_map]
    all_goals exact Bool.noConfusion h

/-- C5 (witness): an empty `Map` misses key `"k"` and faults via `unwrap`;
`Null` is not a map and faults naming the key. -/
theorem indexStr_c5_witness :
    lhmGet [] (MarkedYaml.fromData (.String "k" none)) = none ∧
    YamlData.indexStr (.Map [] none) "k" = .error unwrapNoneMsg ∧
    (YamlData.Null).is_map = false ∧
    YamlData.indexStr YamlData.Null "x" = .error "x: key does not exist" :=
  ⟨rfl, indexStr_c5_amended.2.1 [] none "k" rfl, rfl,
    indexStr_c5_amended.2.2 YamlData.Null "x" rfl⟩

/-- C6 (counterexample): a three-element `Sequence` indexed at 5 faults with
the `unwrap` message, which does not cite "Index out of bounds"; a `Null`
node indexed at 5 faults with `"5: Index out of bounds"`, which does not cite
"not indexable". -/
theorem indexUsize_c6_counterexample :
    YamlData.indexUsize
      (.Sequence [MarkedYaml.fromData .Null, MarkedYaml.fromData .Null,
        MarkedYaml.fromData .Null] none) 5 = .error unwrapNoneMsg ∧
    strContainsSub unwrapNoneMsg "Index out of bounds" = false ∧
    YamlData.indexUsize YamlData.Null 5 = .error "5: Index out of bounds" ∧
    strContainsSub "5: Index out of bounds" "not indexable" = false := by
  refine ⟨rfl, by decide, rfl, by decide⟩

/-- C6 (amended): integer indexing of a `Sequence` does positional lookup,
faulting via `unwrap` (message not citing the index) when out of range;
integer indexing of a `Map` looks up a synthetic tag-less `Integer` key,
faulting via `unwrap` when absent; any other variant faults with
`"{i}: Index out of bounds"` — not "not indexable". -/
theorem indexUsize_c6_amended :
    (∀ (v : List MarkedYaml) (t : Option Tag) (i : Nat) (x : MarkedYaml),
      v[i]? = some x → YamlData.indexUsize (.Sequence v t) i = .ok x) ∧
    (∀ (v : List MarkedYaml) (t : Option Tag) (i : Nat),
      v.length ≤ i →
      YamlData.indexUsize (.Sequence v t) i = .error unwrapNoneMsg) ∧
    (∀ (m : List (MarkedYaml × MarkedYaml)) (t : Option Tag) (i : Nat)
        (x : MarkedYaml), i < 2 ^ 63 →
      lhmGet m (MarkedYaml.fromData (.Integer (Int.ofNat i) none)) = some x →
      YamlData.indexUsize (.Map m t) i = .ok x) ∧
    (∀ (m : List (MarkedYaml × MarkedYaml)) (t : Option Tag) (i : Nat),
      i < 2 ^ 63 →
      lhmGet m (MarkedYaml.fromData (.Integer (Int.ofNat i) none)) = none →
      YamlData.indexUsize (.Map m t) i = .error unwrapNoneMsg) ∧
    (∀ (d : YamlData) (i : Nat), d.is_sequence = false → d.is_map = false →
      YamlData.indexUsize d i = .error s!"{i}: Index out of bounds") := by
  refine ⟨?_, ?_, ?_, ?_, ?_⟩
  · intro v t i x h
    simp only [YamlData.indexUsize, YamlData.as_sequence]
    rw [h]
  · intro v t i h
    have hg : v[i]? = none := by
      rw [List.getElem?_eq_none_iff]
      exact h
    simp only [YamlData.indexUsize, YamlData.as_sequence]
    rw [hg]
  · intro m t i x hi h
    simp only [YamlData.indexUsize, YamlData.as_sequence, YamlData.as_map]
    rw [if_pos hi, h]
  · intro m t i hi h
    simp only [YamlData.indexUsize, YamlData.as_sequence, YamlData.as_map]
    rw [if_pos hi, h]
  · intro d i h1 h2
    cases d <;>
      simp_all only [YamlData.indexUsize, YamlData.as_sequence,
        YamlData.as_map, YamlData.is_sequence, YamlData.is_map]
    all_goals first
      | exact Bool.noConfusion h1
      | exact Bool.noConfusion h2

/-- C6 (witness): `Null` is neither a sequence nor a map and integer indexing
at 5 faults with `"5: Index out of bounds"`. -/
theorem indexUsize_c6_witness :
    (YamlData.Null).is_sequence = false ∧ (YamlData.Null).is_map = false ∧
    YamlData.indexUsize YamlData.Null 5 = .error "5: Index out of bounds" :=
  ⟨rfl, rfl, indexUsize_c6_amended.2.2.2.2 YamlData.Null 5 rfl rfl⟩

/-- C7: `take` returns the node's entire prior value (span and data alike) and
leaves a default-span `BadValue` node in its place. -/
theorem take_c7 (n : MarkedYaml) :
    (MarkedYaml.take n).1 = n ∧
    (MarkedYaml.take n).2 = MarkedYaml.mk Span.default YamlData.BadValue :=
  ⟨rfl, rfl⟩

/-- A `get_mut`-through write on a missing key reports the miss. -/
theorem lhmGetMutSet_none (m : List (MarkedYaml × MarkedYaml)) (k v : MarkedYaml)
    (h : lhmGet m k = none) : lhmGetMutSet m k v = none := by
  induction m with
  | nil => rfl
  | cons a rest ih =>
    obtain ⟨ka, va⟩ := a
    simp only [lhmGet] at h
    simp only [lhmGetMutSet]
    by_cases hb : MarkedYaml.beq ka k = true
    · rw [if_pos hb] at h
      exact Option.noConfusion h
    · rw [if_neg hb] at h
      rw [if_neg hb, ih h]
      rfl

/-- A successful `get_mut`-through write leaves the key sequence unchanged. -/
theorem lhmGetMutSet_keys (m : List (MarkedYaml × MarkedYaml)) (k v : MarkedYaml) :
    ∀ m', lhmGetMutSet m k v = some m' →
      m'.map Prod.fst = m.map Prod.fst := by
  induction m with
  | nil =>
    intro m' h
    simp only [lhmGetMutSet] at h
    exact Option.noConfusion h
  | cons a rest ih =>
    obtain ⟨ka, va⟩ := a
    intro m' h
    simp only [lhmGetMutSet] at h
    by_cases hb : MarkedYaml.beq ka k = true
    · rw [if_pos hb] at h
      obtain rfl := Option.some.inj h
      simp
    · rw [if_neg hb] at h
      cases hr : lhmGetMutSet rest k v with
      | none =>
        rw [hr] at h
        exact Option.noConfusion h
      | some r =>
        rw [hr] at h
        simp only [Option.map_some'] at h
        obtain rfl := Option.some.inj h
        simp [ih r hr]

/-- C8: mutable integer indexing of a `Map` requires the synthetic `Integer`
key to already exist: an absent key faults (so no write happens and the map
is unchanged), and even a successful write through the returned reference
never changes the map's key sequence — no entry is ever inserted. -/
theorem indexMutUsize_c8 :
    (∀ (m : List (MarkedYaml × MarkedYaml)) (t : Option Tag) (i : Nat)
        (v : MarkedYaml), i < 2 ^ 63 →
      lhmGet m (MarkedYaml.fromData (.Integer (Int.ofNat i) none)) = none →
      YamlData.indexMutUsizeSet (.Map m t) i v = .error unwrapNoneMsg) ∧
    (∀ (m : List (MarkedYaml × MarkedYaml)) (t : Option Tag) (i : Nat)
        (v : MarkedYaml) (m' : List (MarkedYaml × MarkedYaml)) (t' : Option Tag),
      YamlData.indexMutUsizeSet (.Map m t) i v = .ok (.Map m' t') →
      m'.map Prod.fst = m.map Prod.fst) := by
  constructor
  · intro m t i v hi h
    simp only [YamlData.indexMutUsizeSet]
    rw [if_pos hi, lhmGetMutSet_none _ _ _ h]
  · intro m t i v m' t' h
    simp only [YamlData.indexMutUsizeSet] at h
    by_cases hi : i < 2 ^ 63
    · rw [if_pos hi] at h
      cases hr : lhmGetMutSet m (MarkedYaml.fromData
          (.Integer (Int.ofNat i) none)) v with
      | none =>
        rw [hr] at h
        exact Except.noConfusion h
      | some r =>
        rw [hr] at h
        have hmap : YamlData.Map r t = YamlData.Map m' t' := Except.ok.inj h
        injection hmap with e1 e2
        subst e1
        exact lhmGetMutSet_keys m _ v _ hr
    · rw [if_neg hi] at h
      exact Except.noConfusion h

/-- C8 (witness): writing at integer key 0 of an empty `Map` faults via
`unwrap` rather than inserting. -/
theorem indexMutUsize_c8_witness :
    (0 : Nat) < 2 ^ 63 ∧
    lhmGet [] (MarkedYaml.fromData (.Integer (Int.ofNat 0) none)) = none ∧
    YamlData.indexMutUsizeSet (.Map [] none) 0 (MarkedYaml.fromData .Null) =
      .error unwrapNoneMsg :=
  ⟨by norm_num, rfl, indexMutUsize_c8.1 [] none 0 _ (by norm_num) rfl⟩

/-- C9: consuming iteration yields exactly the elements of a `Sequence` in
order, and the empty list for every non-`Sequence` variant. -/
theorem intoIter_c9 :
    (∀ (v : List MarkedYaml) (t : Option Tag),
        (YamlData.Sequence v t).intoIterList = v) ∧
    (∀ d : YamlData, d.is_sequence = false → d.intoIterList = []) := by
  refine ⟨fun v t => rfl, ?_⟩
  intro d h
  cases d <;> simp_all [YamlData.intoIterList, YamlData.into_sequence,
    YamlData.is_sequence]

/-- C9 (witness): a `Map` node is not a sequence and iterates as empty. -/
theorem intoIter_c9_witness :
    (YamlData.Map [] none).is_sequence = false ∧
    (YamlData.Map [] none).intoIterList = [] :=
  ⟨rfl, intoIter_c9.2 _ rfl⟩

/-- C10: on every node exactly one of the nine shape predicates is true. -/
theorem predicates_c10 (d : YamlData) :
    ([d.is_alias, d.is_sequence, d.is_badvalue, d.is_boolean, d.is_map,
      d.is_integer, d.is_null, d.is_real, d.is_string].count true) = 1 := by
  cases d <;> rfl
